import Mathlib

/-!
Verification of the refuge certificate generator
(src/refuge_certificate_gen.py) against its specification.

The script batch-generates PDF certificates: it loads a YAML config,
reads spreadsheet rows, resolves per-row field values (with special
date handling), and overlays the values on a template PDF.  The shallow
embedding below translates the data flow of the script into pure Lean
functions; third-party collaborators (pandas date parsing, PyMuPDF and
ReportLab rendering attempts, the filesystem) are modelled as explicit
parameters or oracle functions, since the spec treats them as black
boxes and only constrains how the script calls them.
-/

namespace RefugeCert

/-- A calendar date, modelling Python datetime / pandas Timestamp values
as far as strftime output is concerned. -/
structure Date where
  year : Nat
  month : Nat
  day : Nat
deriving DecidableEq, Repr

/-- Full English month name, as produced by the strftime directive for
the full month name. -/
def monthName : Nat → String
  | 1 => "January"
  | 2 => "February"
  | 3 => "March"
  | 4 => "April"
  | 5 => "May"
  | 6 => "June"
  | 7 => "July"
  | 8 => "August"
  | 9 => "September"
  | 10 => "October"
  | 11 => "November"
  | 12 => "December"
  | _ => ""

/-- Zero-padded two-digit day, as produced by the padded day directive. -/
def pad2 (n : Nat) : String := if n < 10 then "0" ++ toString n else toString n

/-- strftime format used at line 247 for typed date cells:
full month name, padded day, comma, year, trailing period. -/
def fmtMonthDayCommaYearDot (d : Date) : String :=
  monthName d.month ++ " " ++ pad2 d.day ++ ", " ++ toString d.year ++ "."

/-- strftime format used at line 252 for parsed textual dates:
full month name, unpadded day, comma, year, trailing period. -/
def fmtMonthUnpaddedDayCommaYearDot (d : Date) : String :=
  monthName d.month ++ " " ++ toString d.day ++ ", " ++ toString d.year ++ "."

/-- strftime format used at line 232 for the fallback value of today:
full month name, padded day, year, no comma and no period. -/
def fmtMonthDayYear (d : Date) : String :=
  monthName d.month ++ " " ++ pad2 d.day ++ " " ++ toString d.year

/-- strftime format used at line 319 in test mode:
full month name, padded day, comma, year, no period. -/
def fmtMonthDayCommaYear (d : Date) : String :=
  monthName d.month ++ " " ++ pad2 d.day ++ ", " ++ toString d.year

/-- A spreadsheet cell as seen by the row loop: either a missing value
(pandas NaN or None, for which notna is false), a textual or otherwise
stringly value, or an already-typed date value (datetime or Timestamp). -/
inductive CellValue where
  | missing
  | str (s : String)
  | date (d : Date)
deriving DecidableEq, Repr

/-- pandas notna on a cell: false exactly on missing values. -/
def notna : CellValue → Bool
  | .missing => false
  | .str _ => true
  | .date _ => true

/-- Python str() applied to a cell value.  A typed date cell prints as a
Timestamp does (date at midnight); the claims never depend on this form. -/
def cellStr : CellValue → String
  | .missing => "nan"
  | .str s => s
  | .date d => toString d.year ++ "-" ++ pad2 d.month ++ "-" ++ pad2 d.day ++ " 00:00:00"

/-- One spreadsheet row: association list from column name to cell value.
A column absent from the list models a column absent from the dataframe. -/
def Row := List (String × CellValue)

/-- Python dict assignment d[k] = v on an association list: replaces the
binding in place if the key is present, appends otherwise. -/
def dinsert (k v : String) : List (String × String) → List (String × String)
  | [] => [(k, v)]
  | (k₁, v₁) :: rest => if k₁ = k then (k, v) :: rest else (k₁, v₁) :: dinsert k v rest

/-- Lines 244-255: the date branch of the resolver, for a cell that passed
the notna check.  A typed date cell is formatted directly (line 247); a
textual cell is handed to the pandas date parser, modelled by the oracle
parse, and formatted on success (line 252) or kept as-is on failure
(line 255).  The missing case is unreachable because notna was checked. -/
def formatDateCell (parse : String → Option Date) : CellValue → String
  | .date d => fmtMonthDayCommaYearDot d
  | .str s =>
    match parse s with
    | some d => fmtMonthUnpaddedDayCommaYearDot d
    | none => s
  | .missing => ""

/-- Lines 241-262, body of the mapping loop for one pair
(fieldName, excelColumn): the value assigned into field_values for this
field, or none when nothing is assigned.  An empty excelColumn models a
falsy (None or empty) column name in the mapping.  fieldConfigNames are
the keys of the fields section of the config. -/
def stepValue (parse : String → Option Date) (today : Date)
    (fieldConfigNames : List String) (row : Row)
    (fieldName excelColumn : String) : Option String :=
  match (if excelColumn = "" then none else row.lookup excelColumn) with
  | some cell =>
    if fieldName = "date" ∧ notna cell then
      some (formatDateCell parse cell)
    else
      some (if notna cell then cellStr cell else "")
  | none =>
    if fieldName = "date" ∧ fieldName ∈ fieldConfigNames then
      some (fmtMonthDayYear today)
    else
      none

/-- One iteration of the mapping loop: perform the dict assignment when
stepValue produced a value. -/
def resolveStep (parse : String → Option Date) (today : Date)
    (fieldConfigNames : List String) (row : Row)
    (fv : List (String × String)) (p : String × String) : List (String × String) :=
  match stepValue parse today fieldConfigNames row p.1 p.2 with
  | some v => dinsert p.1 v fv
  | none => fv

/-- Lines 237-262: resolve the field values for one row by folding the
mapping loop over field_mappings, starting from the empty dict. -/
def resolveRow (parse : String → Option Date) (today : Date)
    (fieldMappings : List (String × String)) (fieldConfigNames : List String)
    (row : Row) : List (String × String) :=
  fieldMappings.foldl (resolveStep parse today fieldConfigNames row) []

/-- Line 272: replace every non-alphanumeric character by an underscore. -/
def sanitize (s : String) : String :=
  String.mk (s.data.map (fun c => if c.isAlphanum then c else '_'))

/-- One generated certificate file: its destination path together with the
resolved field values handed to the overlay renderer for it. -/
structure OutputFile where
  path : String
  fieldValues : List (String × String)
deriving DecidableEq, Repr

/-- Lines 264-285, one iteration of the row loop: resolve the fields,
derive the output filename and emit the output file, or fail with the
uncaught KeyError of line 273 when no email value was resolved.
Note line 272 computes safe_name but line 274 builds the filename from
the unsanitized person_name. -/
def processRow (parse : String → Option Date) (today : Date)
    (fieldMappings : List (String × String)) (fieldConfigNames : List String)
    (nameField outputFolder : String) (index : Nat) (row : Row) :
    Except String OutputFile :=
  let fv := resolveRow parse today fieldMappings fieldConfigNames row
  let person_name :=
    match fv.lookup nameField with
    | some v => if v ≠ "" then v else "person_" ++ toString index
    | none => "person_" ++ toString index
  let _safe_name := sanitize person_name
  match fv.lookup "email" with
  | some email =>
    .ok ⟨outputFolder ++ "/" ++ (person_name ++ "_" ++ email ++ ".pdf"), fv⟩
  | none => .error "KeyError: email"

/-- Lines 235-287: the row loop.  It has no per-row exception boundary, so
an error from processRow aborts the batch: the outputs of the failing row
and of all later rows are lost, and the error is reported. -/
def processRowsFrom (parse : String → Option Date) (today : Date)
    (fieldMappings : List (String × String)) (fieldConfigNames : List String)
    (nameField outputFolder : String) :
    Nat → List Row → List OutputFile × Option String
  | _, [] => ([], none)
  | index, row :: rest =>
    match processRow parse today fieldMappings fieldConfigNames nameField
        outputFolder index row with
    | .error e => ([], some e)
    | .ok out =>
      let r := processRowsFrom parse today fieldMappings fieldConfigNames
        nameField outputFolder (index + 1) rest
      (out :: r.1, r.2)

/-- Per-field layout block of the YAML config.  Numeric values are
modelled as rationals; a missing key is none and the defaults of the
config.get calls apply at the use sites. -/
structure FieldConfig where
  x_percent : Option ℚ
  y_percent : Option ℚ
  font_size : Option ℚ
  alignment : Option String
  font : Option String
deriving DecidableEq, Repr

/-- The YAML configuration document, keys as recognized by the script. -/
structure Config where
  excel_path : Option String
  template_pdf_path : Option String
  output_folder : Option String
  test_mode : Option Bool
  name_field : Option String
  fields : Option (List (String × FieldConfig))
  field_mappings : Option (List (String × String))
deriving DecidableEq, Repr

/-- Lines 314-315, one iteration of the test-value loop: assign the
placeholder value for one configured field name. -/
def testStep (a : List (String × String)) (fn : String) : List (String × String) :=
  dinsert fn ("Test " ++ fn) a

/-- Lines 292-330, process_single_test: synthesize placeholder values for
every configured field, override the date field with today formatted as
month day comma year when configured, and emit the single test output at
test_certificate.pdf inside the output folder.  The spreadsheet is never
read on this path. -/
def processSingleTest (cfg : Config) (today : Date) : OutputFile :=
  let outputFolder := cfg.output_folder.getD "completed_certificates"
  let names := (cfg.fields.getD []).map Prod.fst
  let fv0 := names.foldl testStep []
  let fv := if "date" ∈ names then dinsert "date" (fmtMonthDayCommaYear today) fv0 else fv0
  ⟨outputFolder ++ "/test_certificate.pdf", fv⟩

/-- Lines 200-289, process_certificates: apply the defaults of the config
lookups and run the row loop over the spreadsheet rows. -/
def processCertificates (parse : String → Option Date) (today : Date)
    (cfg : Config) (rows : List Row) : List OutputFile × Option String :=
  let outputFolder := cfg.output_folder.getD "completed_certificates"
  let fieldConfigNames := (cfg.fields.getD []).map Prod.fst
  let fieldMappings := cfg.field_mappings.getD []
  let nameField := cfg.name_field.getD "full_name"
  processRowsFrom parse today fieldMappings fieldConfigNames nameField
    outputFolder 0 rows

/-- Observable outcome of one run of the script: a sys.exit with a code,
an uncaught exception, or normal completion; in each case together with
the per-recipient output files written before the end of the run. -/
inductive RunOutcome where
  | exited (code : Nat) (outputs : List OutputFile)
  | raised (msg : String) (outputs : List OutputFile)
  | completed (outputs : List OutputFile)
deriving DecidableEq, Repr

/-- Lines 336-376, load_config and main: a failed config load exits with
code 1 (lines 345-347); in test mode process_single_test runs without
consulting the spreadsheet; otherwise a failed spreadsheet read exits
with code 1 (lines 223-225) and a successful read runs the row loop,
whose error, if any, surfaces as an uncaught exception.  The results of
the two fallible reads are modelled as Option parameters. -/
def mainRun (parse : String → Option Date) (today : Date)
    (configLoad : Option Config) (excelLoad : Option (List Row)) : RunOutcome :=
  match configLoad with
  | none => .exited 1 []
  | some cfg =>
    if cfg.test_mode.getD false then
      .completed [processSingleTest cfg today]
    else
      match excelLoad with
      | none => .exited 1 []
      | some rows =>
        match processCertificates parse today cfg rows with
        | (outs, none) => .completed outs
        | (outs, some e) => .raised e outs

/-- Which of the three rendering strategies of add_text_overlay ended up
drawing a field: the ReportLab render-and-composite path (lines 81-153),
the direct insert_text with a font file (lines 156-177), or the default
built-in font (lines 179-192). -/
inductive RenderMethod where
  | reportlab
  | directFont
  | defaultFont
deriving DecidableEq, Repr

/-- The observable effect of rendering one field: the base position
computed from the percentages, the strategy that succeeded, and the
position passed to the text-insertion primitive (none for the ReportLab
path, which composites a whole page instead of inserting text). -/
structure FieldRender where
  field : String
  value : String
  x0 : ℚ
  y0 : ℚ
  method : RenderMethod
  insertPos : Option (ℚ × ℚ)
deriving DecidableEq, Repr

/-- Black-box outcomes of the fallible collaborators of add_text_overlay:
whether a font file exists on disk, and whether the ReportLab attempt and
the direct insert_text attempt succeed for a given field. -/
structure RenderEnv where
  fontExists : String → Bool
  reportlabOk : String → Bool
  directOk : String → Bool

/-- Lines 60-192, body of the field loop of add_text_overlay for one field
that passed the skip checks.  The base position comes from the percentage
config with defaults of 50 (lines 61-64); a truthy existing font file
first tries the ReportLab path, then the direct insert_text path, before
both fall back to the default font; every non-ReportLab path recomputes
the x coordinate for centered alignment from the 0.6 width estimate
(lines 162-164 and 182-185). -/
def renderField (env : RenderEnv) (pw ph : ℚ) (fieldName fieldValue : String)
    (config : FieldConfig) : FieldRender :=
  let x := pw * (config.x_percent.getD 50 / 100)
  let y := ph * (config.y_percent.getD 50 / 100)
  let fontSize := config.font_size.getD 12
  let alignment := config.alignment.getD "left"
  let fontPath := config.font.getD ""
  if fontPath ≠ "" ∧ env.fontExists fontPath then
    if env.reportlabOk fieldName then
      ⟨fieldName, fieldValue, x, y, .reportlab, none⟩
    else
      let x1 := if alignment = "center"
        then (pw - (fieldValue.length : ℚ) * fontSize * 0.6) / 2 else x
      if env.directOk fieldName then
        ⟨fieldName, fieldValue, x, y, .directFont, some (x1, y)⟩
      else
        let x2 := if alignment = "center"
          then (pw - (fieldValue.length : ℚ) * fontSize * 0.6) / 2 else x1
        ⟨fieldName, fieldValue, x, y, .defaultFont, some (x2, y)⟩
  else
    let x2 := if alignment = "center"
      then (pw - (fieldValue.length : ℚ) * fontSize * 0.6) / 2 else x
    ⟨fieldName, fieldValue, x, y, .defaultFont, some (x2, y)⟩

/-- Lines 50-192, the field loop of add_text_overlay: a configured field
with no resolved value is skipped with a warning (lines 52-54), a field
whose resolved value is empty is skipped (lines 57-58), every other
configured field is rendered. -/
def addTextOverlay (env : RenderEnv) (pw ph : ℚ)
    (fieldValues : List (String × String))
    (fieldConfigs : List (String × FieldConfig)) : List FieldRender :=
  fieldConfigs.filterMap (fun p =>
    match fieldValues.lookup p.1 with
    | none => none
    | some v => if v = "" then none else some (renderField env pw ph p.1 v p.2))

/-- The property claimed of resolved date strings: the string ends with a
period. -/
def endsWithPeriod (v : String) : Prop := ∃ pre : String, v = pre ++ "."

/-- A date parser oracle that never succeeds, used for concrete runs. -/
def parseNone : String → Option Date := fun _ => none

/-- A concrete run date used by the concrete evaluations. -/
def today0 : Date := ⟨2024, 1, 5⟩

/-- Concrete render environment with no successful custom-font attempt. -/
def envNone : RenderEnv := ⟨fun _ => false, fun _ => false, fun _ => false⟩

/-- Concrete field layout used to instantiate the renderer theorems. -/
def centerCfg : FieldConfig := ⟨none, none, none, some "center", none⟩

/-- Concrete test-mode configuration used to instantiate the theorems. -/
def testCfg : Config :=
  ⟨none, none, none, some true, none, some [("full_name", centerCfg)], none⟩


theorem lookup_dinsert_self (k v : String) (m : List (String × String)) :
    (dinsert k v m).lookup k = some v := by
  induction m with
  | nil => simp [dinsert, List.lookup_cons]
  | cons p rest ih =>
    obtain ⟨k₁, v₁⟩ := p
    by_cases h : k₁ = k
    · simp [dinsert, h, List.lookup_cons]
    · have hb : (k == k₁) = false := beq_eq_false_iff_ne.mpr (Ne.symm h)
      simp [dinsert, h, List.lookup_cons, hb, ih]

theorem lookup_dinsert_ne (k v fn : String) (m : List (String × String))
    (h : fn ≠ k) : (dinsert k v m).lookup fn = m.lookup fn := by
  induction m with
  | nil => simp [dinsert, List.lookup_cons, beq_eq_false_iff_ne.mpr h]
  | cons p rest ih =>
    obtain ⟨k₁, v₁⟩ := p
    by_cases hk : k₁ = k
    · subst hk
      simp [dinsert, List.lookup_cons, beq_eq_false_iff_ne.mpr h]
    · simp [dinsert, hk, List.lookup_cons, ih]


theorem foldl_resolveStep_lookup_of_not_mem (parse : String → Option Date)
    (today : Date) (names : List String) (row : Row) (fn : String)
    (l : List (String × String)) (acc : List (String × String))
    (h : ∀ col, (fn, col) ∉ l) :
    (l.foldl (resolveStep parse today names row) acc).lookup fn = acc.lookup fn := by
  induction l generalizing acc with
  | nil => rfl
  | cons p rest ih =>
    obtain ⟨k, c⟩ := p
    have hk : fn ≠ k := by
      intro he
      subst he
      exact h c (List.mem_cons_self _ _)
    have hrest : ∀ col, (fn, col) ∉ rest := fun col hc => h col (List.mem_cons_of_mem _ hc)
    rw [List.foldl_cons, ih _ hrest]
    cases hsv : stepValue parse today names row k c with
    | none => simp [resolveStep, hsv]
    | some v => simp [resolveStep, hsv, lookup_dinsert_ne _ _ _ _ hk]

theorem foldl_resolveStep_lookup_of_mem (parse : String → Option Date)
    (today : Date) (names : List String) (row : Row) (fn col : String)
    (l : List (String × String)) (acc : List (String × String))
    (hnd : (l.map Prod.fst).Nodup) (hmem : (fn, col) ∈ l)
    (hacc : acc.lookup fn = none) :
    (l.foldl (resolveStep parse today names row) acc).lookup fn =
      stepValue parse today names row fn col := by
  induction l generalizing acc with
  | nil => cases hmem
  | cons p rest ih =>
    obtain ⟨k, c⟩ := p
    rw [List.map_cons] at hnd
    have hnd2 := List.nodup_cons.mp hnd
    rcases List.mem_cons.mp hmem with heq | hrest
    · injection heq with h1 h2
      subst h1
      subst h2
      have hnotin : ∀ col2, (fn, col2) ∉ rest := by
        intro col2 hc
        exact hnd2.1 (List.mem_map.mpr ⟨(fn, col2), hc, rfl⟩)
      rw [List.foldl_cons,
        foldl_resolveStep_lookup_of_not_mem parse today names row fn rest _ hnotin]
      cases hsv : stepValue parse today names row fn col with
      | none => simp [resolveStep, hsv, hacc]
      | some v => simp [resolveStep, hsv, lookup_dinsert_self]
    · have hk : fn ≠ k := by
        intro he
        subst he
        exact hnd2.1 (List.mem_map.mpr ⟨(fn, col), hrest, rfl⟩)
      rw [List.foldl_cons]
      apply ih _ hnd2.2 hrest
      cases hsv : stepValue parse today names row k c with
      | none => simpa [resolveStep, hsv] using hacc
      | some v => simp [resolveStep, hsv, lookup_dinsert_ne _ _ _ _ hk, hacc]

theorem resolveRow_lookup (parse : String → Option Date) (today : Date)
    (fieldMappings : List (String × String)) (names : List String) (row : Row)
    (fn col : String)
    (hnd : (fieldMappings.map Prod.fst).Nodup) (hmem : (fn, col) ∈ fieldMappings) :
    (resolveRow parse today fieldMappings names row).lookup fn =
      stepValue parse today names row fn col :=
  foldl_resolveStep_lookup_of_mem parse today names row fn col fieldMappings [] hnd hmem rfl


/-- C9: if the configuration document cannot be read or parsed, or, in normal
mode, the spreadsheet cannot be read or parsed, the run terminates immediately
with exit code 1 and no per-recipient output file is produced. -/
theorem fatal_exit_code_one (parse : String → Option Date) (today : Date)
    (configLoad : Option Config) (excelLoad : Option (List Row))
    (h : configLoad = none ∨
      ∃ cfg, configLoad = some cfg ∧ cfg.test_mode.getD false = false ∧ excelLoad = none) :
    mainRun parse today configLoad excelLoad = RunOutcome.exited 1 [] := by
  rcases h with h | ⟨cfg, hc, hm, he⟩
  · subst h
    rfl
  · subst hc
    subst he
    simp [mainRun, hm]

/-- C10: in normal mode, when the configured name field is absent from the
resolved field set for a row or resolves to the empty value, the name portion
of that row output filename is the literal person_ followed by the row index. -/
theorem fallback_person_name_filename (parse : String → Option Date) (today : Date)
    (fieldMappings : List (String × String)) (names : List String)
    (nameField outputFolder : String) (index : Nat) (row : Row) (em : String)
    (hname : (resolveRow parse today fieldMappings names row).lookup nameField = none ∨
             (resolveRow parse today fieldMappings names row).lookup nameField = some "")
    (hemail : (resolveRow parse today fieldMappings names row).lookup "email" = some em) :
    processRow parse today fieldMappings names nameField outputFolder index row =
      Except.ok ⟨outputFolder ++ "/" ++ ("person_" ++ toString index ++ "_" ++ em ++ ".pdf"),
        resolveRow parse today fieldMappings names row⟩ := by
  rcases hname with h | h <;> simp [processRow, h, hemail]

/-- C4: in normal mode, a row for which no email value was resolved (the
email-mapped source column is absent for that row) makes the email lookup of
line 273 raise an uncaught KeyError; the row is not soft-skipped, and the
row loop, having no per-row exception boundary, aborts the batch. -/
theorem missing_email_raises (parse : String → Option Date) (today : Date)
    (fieldMappings : List (String × String)) (names : List String)
    (nameField outputFolder : String) (index : Nat) (row : Row) (col : String)
    (rest : List Row)
    (hnd : (fieldMappings.map Prod.fst).Nodup)
    (hmem : ("email", col) ∈ fieldMappings)
    (habs : col = "" ∨ row.lookup col = none) :
    processRow parse today fieldMappings names nameField outputFolder index row =
      Except.error "KeyError: email" ∧
    processRowsFrom parse today fieldMappings names nameField outputFolder index
      (row :: rest) = ([], some "KeyError: email") := by
  have hnone : (if col = "" then none else row.lookup col) = (none : Option CellValue) := by
    rcases habs with h | h
    · simp [h]
    · by_cases hc : col = "" <;> simp [hc, h]
  have hstep : stepValue parse today names row "email" col = none := by
    rw [stepValue, hnone]
    exact if_neg (fun hc => absurd hc.1 (by decide))
  have hlook : (resolveRow parse today fieldMappings names row).lookup "email" = none := by
    rw [resolveRow_lookup parse today fieldMappings names row "email" col hnd hmem, hstep]
  refine ⟨by simp [processRow, hlook], ?_⟩
  simp [processRowsFrom, processRow, hlook]

/-- C2, evaluation at the failing input: a row whose mapped date column is
present but holds an empty (NaN) cell resolves the date field to the empty
string, not to the current date formatted as month day year, although date is
present in the field configuration.  The inline comment at line 260 states
that missing or empty date cells should fall back to the current date, but
the code only handles the missing-column case. -/
theorem empty_date_cell_resolves_empty :
    resolveRow parseNone today0 [("date", "Date")] ["date"]
      [("Date", CellValue.missing)] = [("date", "")] ∧
    fmtMonthDayYear today0 = "January 05 2024" ∧
    ("" : String) ≠ "January 05 2024" := ⟨rfl, rfl, by decide⟩

/-- C1, evaluation at the failing input: line 272 computes safe_name by
replacing non-alphanumeric characters, but line 274 builds the output filename
from the unsanitized person_name, so a resolved name with a space produces a
filename whose name portion is not restricted to alphanumerics and
underscores. -/
theorem unsanitized_filename_eval :
    processRow parseNone today0 [("full_name", "Name"), ("email", "Email")]
      ["full_name", "email"] "full_name" "out" 0
      [("Name", CellValue.str "John Doe"), ("Email", CellValue.str "jd@example.org")] =
      Except.ok ⟨"out/John Doe_jd@example.org.pdf",
        [("full_name", "John Doe"), ("email", "jd@example.org")]⟩ ∧
    sanitize "John Doe" = "John_Doe" ∧
    "John Doe_jd@example.org.pdf" ≠ "John_Doe_jd@example.org.pdf" :=
  ⟨rfl, rfl, by decide⟩


theorem foldl_testStep_lookup (l : List String) (acc : List (String × String))
    (fn : String)
    (h : fn ∈ l ∨ acc.lookup fn = some ("Test " ++ fn)) :
    (l.foldl testStep acc).lookup fn = some ("Test " ++ fn) := by
  induction l generalizing acc with
  | nil =>
    rcases h with h | h
    · cases h
    · exact h
  | cons x xs ih =>
    rw [List.foldl_cons]
    apply ih
    by_cases hx : fn = x
    · subst hx
      right
      exact lookup_dinsert_self fn ("Test " ++ fn) acc
    · rcases h with h | h
      · rcases List.mem_cons.mp h with h1 | h2
        · exact absurd h1 hx
        · left
          exact h2
      · right
        rw [testStep, lookup_dinsert_ne _ _ _ _ hx]
        exact h

/-- C5: in test mode exactly one output file is produced, at
test_certificate.pdf inside the output folder, with every configured field
given the placeholder value Test followed by the field name, the date field
given the current date when configured, and the spreadsheet never consulted
(the outcome is independent of the spreadsheet load result). -/
theorem test_mode_single_output (parse : String → Option Date) (today : Date)
    (cfg : Config) (e1 e2 : Option (List Row))
    (ht : cfg.test_mode = some true) :
    mainRun parse today (some cfg) e1 = mainRun parse today (some cfg) e2 ∧
    mainRun parse today (some cfg) e1 =
      RunOutcome.completed [processSingleTest cfg today] ∧
    (processSingleTest cfg today).path =
      cfg.output_folder.getD "completed_certificates" ++ "/test_certificate.pdf" ∧
    ∀ fn ∈ (cfg.fields.getD []).map Prod.fst,
      (processSingleTest cfg today).fieldValues.lookup fn =
        some (if fn = "date" then fmtMonthDayCommaYear today else "Test " ++ fn) := by
  refine ⟨by simp [mainRun, ht], by simp [mainRun, ht], rfl, ?_⟩
  intro fn hfn
  by_cases hd : fn = "date"
  · subst hd
    simp only [processSingleTest, hfn, if_true, if_pos]
    rw [lookup_dinsert_self]
  · simp only [processSingleTest]
    by_cases hdm : "date" ∈ (cfg.fields.getD []).map Prod.fst
    · rw [if_pos hdm, lookup_dinsert_ne _ _ _ _ hd,
        foldl_testStep_lookup _ _ _ (Or.inl hfn), if_neg hd]
    · rw [if_neg hdm, foldl_testStep_lookup _ _ _ (Or.inl hfn), if_neg hd]


/-- C3 as amended: for a row whose mapped date column is present with a
non-null value that is a typed date or a string the date parser accepts, the
resolved date string is the full month name, the day, a comma, the four-digit
year and a trailing period.  (The claim as stated fails when parsing a
textual value fails: the raw string is kept as-is, see the counterexample.) -/
theorem resolved_date_format (parse : String → Option Date) (today : Date)
    (fieldMappings : List (String × String)) (names : List String) (row : Row)
    (col : String) (cell : CellValue) (d : Date)
    (hnd : (fieldMappings.map Prod.fst).Nodup)
    (hmem : ("date", col) ∈ fieldMappings)
    (hcol : col ≠ "")
    (hcell : row.lookup col = some cell)
    (hkind : cell = CellValue.date d ∨ ∃ s, cell = CellValue.str s ∧ parse s = some d)
    (hy1 : 1000 ≤ d.year) (hy2 : d.year ≤ 9999) :
    ∃ v dd, (resolveRow parse today fieldMappings names row).lookup "date" = some v ∧
      v = monthName d.month ++ " " ++ dd ++ ", " ++ toString d.year ++ "." ∧
      (dd = pad2 d.day ∨ dd = toString d.day) ∧
      (Nat.digits 10 d.year).length = 4 := by
  have hlog : Nat.log 10 d.year = 3 :=
    Nat.log_eq_of_pow_le_of_lt_pow (by norm_num; omega) (by norm_num; omega)
  have hlen : (Nat.digits 10 d.year).length = 4 := by
    rw [Nat.digits_len 10 d.year (by norm_num) (by omega), hlog]
  have hrl := resolveRow_lookup parse today fieldMappings names row "date" col hnd hmem
  rcases hkind with rfl | ⟨s, rfl, hp⟩
  · refine ⟨_, pad2 d.day, ?_, rfl, Or.inl rfl, hlen⟩
    rw [hrl]
    simp [stepValue, hcol, hcell, notna, formatDateCell, fmtMonthDayCommaYearDot]
  · refine ⟨_, toString d.day, ?_, rfl, Or.inr rfl, hlen⟩
    rw [hrl]
    simp [stepValue, hcol, hcell, notna, formatDateCell, hp,
      fmtMonthUnpaddedDayCommaYearDot]

/-- C3 counterexample: a non-null textual date value that the date parser
rejects is resolved as the raw string, which does not end with a period. -/
theorem unparsed_date_kept_raw :
    (resolveRow parseNone today0 [("date", "Date")] ["date"]
      [("Date", CellValue.str "next full moon")]).lookup "date" =
        some "next full moon" ∧
    ¬ endsWithPeriod "next full moon" := by
  refine ⟨rfl, ?_⟩
  rintro ⟨pre, hpre⟩
  have hd : "next full moon".data.getLast? = some 'n' := by decide
  rw [hpre, String.data_append] at hd
  rw [show (".".data) = ['.'] from rfl, List.getLast?_concat] at hd
  cases hd


theorem renderField_field (env : RenderEnv) (pw ph : ℚ) (fn v : String)
    (c : FieldConfig) : (renderField env pw ph fn v c).field = fn := by
  simp only [renderField]
  split_ifs <;> rfl

theorem renderField_value (env : RenderEnv) (pw ph : ℚ) (fn v : String)
    (c : FieldConfig) : (renderField env pw ph fn v c).value = v := by
  simp only [renderField]
  split_ifs <;> rfl

theorem renderField_x0 (env : RenderEnv) (pw ph : ℚ) (fn v : String)
    (c : FieldConfig) :
    (renderField env pw ph fn v c).x0 = pw * (c.x_percent.getD 50 / 100) := by
  simp only [renderField]
  split_ifs <;> rfl

theorem renderField_y0 (env : RenderEnv) (pw ph : ℚ) (fn v : String)
    (c : FieldConfig) :
    (renderField env pw ph fn v c).y0 = ph * (c.y_percent.getD 50 / 100) := by
  simp only [renderField]
  split_ifs <;> rfl

/-- C6: a field rendered with the default built-in font and centered
alignment has its horizontal insert position equal to
(page_width - text_length * font_size * 0.6) / 2. -/
theorem default_font_centered_x (env : RenderEnv) (pw ph : ℚ) (fn v : String)
    (c : FieldConfig)
    (h1 : (renderField env pw ph fn v c).method = RenderMethod.defaultFont)
    (h2 : c.alignment.getD "left" = "center") :
    (renderField env pw ph fn v c).insertPos =
      some ((pw - (v.length : ℚ) * (c.font_size.getD 12) * 0.6) / 2,
        ph * (c.y_percent.getD 50 / 100)) := by
  simp only [renderField] at h1 ⊢
  split_ifs at h1 ⊢ <;> simp_all

/-- C7: every rendered field has its base overlay position computed from the
first-page dimensions as x equal to page_width times x_percent over 100 and
y equal to page_height times y_percent over 100, the percentages defaulting
to 50 when absent from the field configuration. -/
theorem overlay_position_from_percentages (env : RenderEnv) (pw ph : ℚ)
    (fieldValues : List (String × String))
    (fieldConfigs : List (String × FieldConfig)) (r : FieldRender)
    (hr : r ∈ addTextOverlay env pw ph fieldValues fieldConfigs) :
    ∃ c, (r.field, c) ∈ fieldConfigs ∧
      r.x0 = pw * (c.x_percent.getD 50 / 100) ∧
      r.y0 = ph * (c.y_percent.getD 50 / 100) := by
  rcases List.mem_filterMap.mp hr with ⟨⟨fn, c⟩, hmem, heq⟩
  dsimp only at heq
  cases hl : fieldValues.lookup fn with
  | none =>
    rw [hl] at heq
    cases heq
  | some v =>
    rw [hl] at heq
    dsimp only at heq
    by_cases hv : v = ""
    · rw [if_pos hv] at heq
      cases heq
    · rw [if_neg hv] at heq
      injection heq with heq
      subst heq
      exact ⟨c, by rw [renderField_field]; exact hmem,
        renderField_x0 env pw ph fn v c, renderField_y0 env pw ph fn v c⟩

/-- C8: the renderer overlays exactly the configured fields that have a
non-empty resolved value, in configuration order; a configured field absent
from the resolved values or resolving to the empty string is skipped, and no
case raises an error to the caller. -/
theorem overlay_skips_missing_and_empty (env : RenderEnv) (pw ph : ℚ)
    (fieldValues : List (String × String))
    (fieldConfigs : List (String × FieldConfig)) :
    (addTextOverlay env pw ph fieldValues fieldConfigs).map
        (fun r => (r.field, r.value)) =
      fieldConfigs.filterMap (fun p => (fieldValues.lookup p.1).bind
        (fun v => if v = "" then none else some (p.1, v))) := by
  induction fieldConfigs with
  | nil => rfl
  | cons p rest ih =>
    obtain ⟨fn, c⟩ := p
    cases hl : fieldValues.lookup fn with
    | none => simpa [addTextOverlay, List.filterMap_cons, hl] using ih
    | some v =>
      by_cases hv : v = ""
      · simpa [addTextOverlay, List.filterMap_cons, hl, hv] using ih
      · simpa [addTextOverlay, List.filterMap_cons, hl, hv,
          renderField_field, renderField_value] using ih


theorem resolved_date_format_witness :
    (([("date", "Date")] : List (String × String)).map Prod.fst).Nodup ∧
    ∃ v dd, (resolveRow parseNone today0 [("date", "Date")] ["date"]
        [("Date", CellValue.date ⟨2024, 1, 5⟩)]).lookup "date" = some v ∧
      v = monthName 1 ++ " " ++ dd ++ ", " ++ toString 2024 ++ "." ∧
      (dd = pad2 5 ∨ dd = toString 5) ∧
      (Nat.digits 10 2024).length = 4 :=
  ⟨by decide, resolved_date_format parseNone today0 [("date", "Date")] ["date"]
    [("Date", CellValue.date ⟨2024, 1, 5⟩)] "Date" (CellValue.date ⟨2024, 1, 5⟩)
    ⟨2024, 1, 5⟩ (by decide) (by decide) (by decide) rfl (Or.inl rfl)
    (by norm_num) (by norm_num)⟩

theorem missing_email_raises_witness :
    (([("email", "Email")] : List (String × String)).map Prod.fst).Nodup ∧
    processRow parseNone today0 [("email", "Email")] [] "full_name" "out" 0 [] =
      Except.error "KeyError: email" ∧
    processRowsFrom parseNone today0 [("email", "Email")] [] "full_name" "out" 0
      [([] : Row)] = ([], some "KeyError: email") :=
  ⟨by decide, missing_email_raises parseNone today0 [("email", "Email")] []
    "full_name" "out" 0 [] "Email" [] (by decide) (by decide) (Or.inr rfl)⟩

theorem test_mode_single_output_witness :
    testCfg.test_mode = some true ∧
    mainRun parseNone today0 (some testCfg) none =
      mainRun parseNone today0 (some testCfg) (some []) ∧
    mainRun parseNone today0 (some testCfg) none =
      RunOutcome.completed [processSingleTest testCfg today0] ∧
    (processSingleTest testCfg today0).path =
      testCfg.output_folder.getD "completed_certificates" ++ "/test_certificate.pdf" ∧
    ∀ fn ∈ (testCfg.fields.getD []).map Prod.fst,
      (processSingleTest testCfg today0).fieldValues.lookup fn =
        some (if fn = "date" then fmtMonthDayCommaYear today0 else "Test " ++ fn) :=
  ⟨rfl, test_mode_single_output parseNone today0 testCfg none (some []) rfl⟩

theorem default_font_centered_x_witness :
    (renderField envNone 100 200 "full_name" "ab" centerCfg).method =
      RenderMethod.defaultFont ∧
    centerCfg.alignment.getD "left" = "center" ∧
    (renderField envNone 100 200 "full_name" "ab" centerCfg).insertPos =
      some ((100 - (("ab" : String).length : ℚ) * (centerCfg.font_size.getD 12) * 0.6) / 2,
        200 * (centerCfg.y_percent.getD 50 / 100)) :=
  ⟨rfl, rfl,
    default_font_centered_x envNone 100 200 "full_name" "ab" centerCfg rfl rfl⟩

theorem overlay_position_witness :
    renderField envNone 100 200 "f" "v" centerCfg ∈
      addTextOverlay envNone 100 200 [("f", "v")] [("f", centerCfg)] ∧
    ∃ c, ((renderField envNone 100 200 "f" "v" centerCfg).field, c) ∈
        [("f", centerCfg)] ∧
      (renderField envNone 100 200 "f" "v" centerCfg).x0 =
        100 * (c.x_percent.getD 50 / 100) ∧
      (renderField envNone 100 200 "f" "v" centerCfg).y0 =
        200 * (c.y_percent.getD 50 / 100) :=
  ⟨List.mem_singleton.mpr rfl,
    overlay_position_from_percentages envNone 100 200 [("f", "v")]
      [("f", centerCfg)] (renderField envNone 100 200 "f" "v" centerCfg)
      (List.mem_singleton.mpr rfl)⟩

theorem fatal_exit_code_one_witness :
    mainRun parseNone today0 none none = RunOutcome.exited 1 [] :=
  fatal_exit_code_one parseNone today0 none none (Or.inl rfl)

theorem fallback_person_name_filename_witness :
    (resolveRow parseNone today0 [("email", "Email")] []
      [("Email", CellValue.str "a@b.org")]).lookup "full_name" = none ∧
    processRow parseNone today0 [("email", "Email")] [] "full_name" "out" 3
      [("Email", CellValue.str "a@b.org")] =
      Except.ok ⟨"out" ++ "/" ++ ("person_" ++ toString 3 ++ "_" ++ "a@b.org" ++ ".pdf"),
        resolveRow parseNone today0 [("email", "Email")] []
          [("Email", CellValue.str "a@b.org")]⟩ :=
  ⟨rfl, fallback_person_name_filename parseNone today0 [("email", "Email")] []
    "full_name" "out" 3 [("Email", CellValue.str "a@b.org")] "a@b.org"
    (Or.inl rfl) rfl⟩

end RefugeCert
